import Mathlib

/-!
Shallow embedding of the seed-resolution algorithm of the `yui.seed`
middleware extension (the `exposeSeed` method and its helpers
`flush`, `isSimilarGroup`, `FILTERS_MAP`, `DEFAULT_FILTER`).

JavaScript objects are modelled as Lean structures; JavaScript string
falsiness is modelled as equality with the empty string; `undefined`
values are modelled with `Option`; the association objects
`this._map` (module registry) and `config.groups` (group catalog) are
modelled as association lists looked up with `List.lookup`; the
mutable loop variables `seedCache`, `stack` and `prevGroup` become an
explicit state record threaded through a fold; the `console.warn`
diagnostic in the skip branch becomes an accumulated list of warned
module names.
-/

/-- A group descriptor: a named serving policy read off either an
entry of `config.groups` or the top-level `config` object itself.
The resolver reads exactly these five properties of whatever object
plays the role of `group`. -/
structure GroupDescriptor where
  base : String := ""
  combine : Bool := false
  comboBase : String := ""
  comboSep : String := ""
  root : String := ""
deriving DecidableEq, Repr

/-- An entry of the module registry `this._map`: `{group, path}`. -/
structure RegistryEntry where
  group : String := ""
  path : String := ""
deriving DecidableEq, Repr

/-- The static configuration object.  `seed`, `filter` and `groups`
are the properties the resolver reads explicitly; the remaining five
fields are the group-descriptor properties read off `config` when it
is used as the implicit group of an unregistered module. -/
structure Config where
  seed : Option (List String) := none
  filter : Option String := none
  groups : List (String × GroupDescriptor) := []
  base : String := ""
  combine : Bool := false
  comboBase : String := ""
  comboSep : String := ""
  root : String := ""
deriving DecidableEq, Repr

/-- The module registry `this._map`. -/
abbrev Registry := List (String × RegistryEntry)

/-- The five group-descriptor properties of the configuration object,
as read by the resolver when an unregistered module falls back to
`group = config`. -/
def Config.asGroup (c : Config) : GroupDescriptor :=
  { base := c.base, combine := c.combine, comboBase := c.comboBase,
    comboSep := c.comboSep, root := c.root }

/-- `FILTERS_MAP`, mapping "raw" to the empty suffix, "min" to
"-min", and "debug" to "-debug". -/
def FILTERS_MAP : List (String × String) :=
  [("raw", ""), ("min", "-min"), ("debug", "-debug")]

/-- `DEFAULT_FILTER = "-min"`. -/
def DEFAULT_FILTER : String := "-min"

/-- `config.filter && FILTERS_MAP.hasOwnProperty(config.filter) ?
FILTERS_MAP[config.filter] : DEFAULT_FILTER`.  A missing or empty
(falsy) filter, and a filter that is not a key of `FILTERS_MAP`,
fall back to `DEFAULT_FILTER`. -/
def filterSuffix (f : Option String) : String :=
  match f with
  | none => DEFAULT_FILTER
  | some s =>
    if s ≠ "" then
      match FILTERS_MAP.lookup s with
      | some v => v
      | none => DEFAULT_FILTER
    else DEFAULT_FILTER

/-- One element of the output array: `{src: "..."}`. -/
structure ScriptDescriptor where
  src : String
deriving DecidableEq, Repr

/-- JavaScript `Array.prototype.join(sep)`. -/
def joinSep (sep : String) : List String → String
  | [] => ""
  | [x] => x
  | x :: y :: rest => x ++ sep ++ joinSep sep (y :: rest)

/-- The mutable variables of the `exposeSeed` loop: the output array
`seedCache`, the pending combo fragments `stack`, the last resolved
group `prevGroup`, plus the accumulated diagnostic warnings. -/
structure St where
  out : List ScriptDescriptor := []
  stack : List String := []
  prev : Option GroupDescriptor := none
  warns : List String := []
deriving DecidableEq, Repr

/-- The inner `flush` function: when the stack is non-empty, emit one
combined descriptor built from `prevGroup.comboBase` and the stack
joined with `prevGroup.comboSep`; in every case reset the stack.
(The `prev = none` inner branch is unreachable from the initial
state: the stack only becomes non-empty in the combine branch of the
loop, which also sets `prevGroup`.  The JavaScript would throw there;
the `console.log(prevGroup)` debug print is not modelled.) -/
def flush (s : St) : St :=
  if s.stack.length > 0 then
    match s.prev with
    | some prev =>
      { s with
        out := s.out ++ [{ src := prev.comboBase ++ joinSep prev.comboSep s.stack }],
        stack := [] }
    | none => { s with stack := [] }
  else { s with stack := [] }

/-- The inner `isSimilarGroup` predicate: the new group continues the
current run iff both it and `prevGroup` exist and combine, with
identical `comboBase` and `comboSep`. -/
def isSimilarGroup (newGroup : GroupDescriptor) (prevGroup : Option GroupDescriptor) : Bool :=
  match prevGroup with
  | some prev =>
    newGroup.combine && prev.combine &&
      (newGroup.comboBase == prev.comboBase) && (newGroup.comboSep == prev.comboSep)
  | none => false

/-- Resolution of one module name to its group descriptor and path
(the lookup half of the loop body plus the `path && group` guard):
a registered module takes its catalog group and registry path and is
unresolvable (`none`) when the group name is absent from the catalog
or the path is empty (falsy); an unregistered module falls back to
the configuration object itself as group, with the default path
`name + "/" + name + filter + ".js"`. -/
def resolveMod (cfg : Config) (map : Registry) (m : String) : Option (GroupDescriptor × String) :=
  match map.lookup m with
  | some entry =>
    match cfg.groups.lookup entry.group with
    | some g => if entry.path = "" then none else some (g, entry.path)
    | none => none
  | none => some (cfg.asGroup, m ++ "/" ++ m ++ filterSuffix cfg.filter ++ ".js")

/-- One iteration of the `exposeSeed` loop body.  A resolvable module
first flushes the pending run unless its group is similar to
`prevGroup`, then either pushes `group.root + path` onto the stack
(combinable group) or emits `{src: group.base + path}` directly, and
becomes the new `prevGroup`.  An unresolvable module is skipped with
a warning, leaving the other state untouched. -/
def step (cfg : Config) (map : Registry) (s : St) (m : String) : St :=
  match resolveMod cfg map m with
  | some (group, path) =>
    let s1 := if isSimilarGroup group s.prev then s else flush s
    let s2 :=
      if group.combine then { s1 with stack := s1.stack ++ [group.root ++ path] }
      else { s1 with out := s1.out ++ [{ src := group.base ++ path }] }
    { s2 with prev := some group }
  | none => { s with warns := s.warns ++ [m] }

/-- The initial state of the loop. -/
def initSt : St := {}

/-- The whole resolution pass over a list of module names: the loop
followed by the final `flush()`. -/
def runModules (cfg : Config) (map : Registry) (mods : List String) : St :=
  flush (mods.foldl (step cfg map) initSt)

/-- `getDefaultSeed()`. -/
def getDefaultSeed : List String := ["yui-base"]

/-- `config.seed || this.getDefaultSeed()`.  (An empty array is
truthy in JavaScript, so only a missing `seed` falls back.) -/
def seedModules (cfg : Config) : List String := cfg.seed.getD getDefaultSeed

/-- The `seedCache` array computed by one call of `exposeSeed`. -/
def resolveSeed (cfg : Config) (map : Registry) : List ScriptDescriptor :=
  (runModules cfg map (seedModules cfg)).out

/-- The warnings emitted by one call of `exposeSeed`, in order. -/
def seedWarnings (cfg : Config) (map : Registry) : List String :=
  (runModules cfg map (seedModules cfg)).warns

/-- Whether a module name survives the `path && group` guard. -/
def resolves (cfg : Config) (map : Registry) (m : String) : Bool :=
  (resolveMod cfg map m).isSome

/-- The state shared between calls of `exposeSeed`: the static
configuration and the module registry `this._map`. -/
structure AppState where
  config : Config
  map : Registry
deriving DecidableEq, Repr

/-- One call of `exposeSeed` as a state transformer: the call reads
`this.config()` and `this._map` and never assigns to them, so the
post-call state is the pre-call state. -/
def exposeSeedCall (s : AppState) : List ScriptDescriptor × AppState :=
  (resolveSeed s.config s.map, s)

/-- The ordered list of (group, path) resolutions of the modules that
survive the `path && group` guard. -/
def resolvedOf (cfg : Config) (map : Registry) (mods : List String) :
    List (GroupDescriptor × String) :=
  mods.filterMap (resolveMod cfg map)

/-- Modelled from the spec: structural compatibility of a resolved
entry with the (combinable) group that opened the current run —
`combine=true` with identical `comboBase` and `comboSep` (§3 of the
spec; within a run this head-comparison agrees with the
previous-element comparison of the code because the relation is
transitive on combinable groups). -/
def simGB (g : GroupDescriptor) (e : GroupDescriptor × String) : Bool :=
  e.1.combine && (e.1.comboBase == g.comboBase) && (e.1.comboSep == g.comboSep)

/-- The combo-URL fragment contributed by one resolved entry:
`group.root + path`. -/
def fragOf (e : GroupDescriptor × String) : String := e.1.root ++ e.2

/-- Modelled from the spec: the expected output shape (§3 invariant 1
and §4.1).  Each resolved module contributes its descriptor in input
position, except that a maximal consecutive run of entries with
compatible combinable groups collapses into one combined descriptor
placed where the first entry of the run appears. -/
def specRuns : List (GroupDescriptor × String) → List ScriptDescriptor
  | [] => []
  | (g, p) :: rest =>
    if g.combine then
      { src := g.comboBase ++
          joinSep g.comboSep ((g.root ++ p) :: (rest.takeWhile (simGB g)).map fragOf) }
        :: specRuns (rest.dropWhile (simGB g))
    else
      { src := g.base ++ p } :: specRuns rest
termination_by rs => rs.length
decreasing_by
  · simp only [List.length_cons]
    have h : (rest.dropWhile (simGB g)).length ≤ rest.length := by
      induction rest with
      | nil => simp [List.dropWhile]
      | cons a l ih =>
        rw [List.dropWhile_cons]
        split
        · exact Nat.le_succ_of_le ih
        · simp
    exact Nat.lt_succ_of_le h
  · simp

/-- The resolution pass started from an arbitrary pending stack and
previous group (with empty output and warnings), keeping only the
emitted descriptors.  `resolveSeed` is the instance with empty
pending state. -/
def runFrom (cfg : Config) (map : Registry) (st : List String)
    (p : Option GroupDescriptor) (mods : List String) : List ScriptDescriptor :=
  (flush (mods.foldl (step cfg map) { out := [], stack := st, prev := p, warns := [] })).out

/-- A sample configuration with one combinable catalog group. -/
def c8cfg : Config :=
  { groups := [(("gA"),
      { combine := true, comboBase := ("/c?"), comboSep := ("&"), root := ("r/") })] }

/-- A sample registry: two modules in the combinable group around one
module whose group name is absent from the catalog. -/
def c8map : Registry :=
  [(("a"), { group := ("gA"), path := ("pa") }),
   (("w"), { group := ("ghost"), path := ("pw") }),
   (("b"), { group := ("gA"), path := ("pb") })]

/-! ### Structural lemmas about the loop state

The output and warning components of the state are append-only and
never read back by the loop, so a fold from an arbitrary state
factors through the fold from the state with empty output and
warnings. -/

lemma flush_shape (o : List ScriptDescriptor) (st : List String)
    (p : Option GroupDescriptor) (w : List String) :
    flush { out := o, stack := st, prev := p, warns := w } =
      { out := o ++ (flush { out := [], stack := st, prev := p, warns := [] }).out,
        stack := [], prev := p, warns := w } := by
  unfold flush
  cases st with
  | nil => simp
  | cons x xs => cases p <;> simp

lemma step_shape (cfg : Config) (map : Registry) (m : String) (o : List ScriptDescriptor)
    (st : List String) (p : Option GroupDescriptor) (w : List String) :
    step cfg map { out := o, stack := st, prev := p, warns := w } m =
      { out := o ++ (step cfg map { out := [], stack := st, prev := p, warns := [] } m).out,
        stack := (step cfg map { out := [], stack := st, prev := p, warns := [] } m).stack,
        prev := (step cfg map { out := [], stack := st, prev := p, warns := [] } m).prev,
        warns := w ++ (step cfg map { out := [], stack := st, prev := p, warns := [] } m).warns } := by
  cases h : resolveMod cfg map m with
  | none => simp [step, h]
  | some gp =>
    obtain ⟨g, pp⟩ := gp
    by_cases hs : isSimilarGroup g p
    · by_cases hc : g.combine <;> simp [step, h, hs, hc]
    · by_cases hc : g.combine <;> cases st <;> cases p <;>
        simp [step, h, hs, hc, flush]

lemma foldl_shape (cfg : Config) (map : Registry) (mods : List String) :
    ∀ (o : List ScriptDescriptor) (st : List String)
      (p : Option GroupDescriptor) (w : List String),
      mods.foldl (step cfg map) { out := o, stack := st, prev := p, warns := w } =
        { out := o ++ (mods.foldl (step cfg map)
            { out := [], stack := st, prev := p, warns := [] }).out,
          stack := (mods.foldl (step cfg map)
            { out := [], stack := st, prev := p, warns := [] }).stack,
          prev := (mods.foldl (step cfg map)
            { out := [], stack := st, prev := p, warns := [] }).prev,
          warns := w ++ (mods.foldl (step cfg map)
            { out := [], stack := st, prev := p, warns := [] }).warns } := by
  induction mods with
  | nil => intro o st p w; simp
  | cons m rest ih =>
    intro o st p w
    simp only [List.foldl_cons]
    rw [step_shape]
    rw [ih]
    conv_rhs => rw [step_shape, ih]
    simp [List.append_assoc]

lemma flush_out (s : St) :
    (flush s).out =
      s.out ++ (flush { out := [], stack := s.stack, prev := s.prev, warns := [] }).out := by
  cases s with
  | mk o st p w => rw [flush_shape]

lemma flush_warns (s : St) : (flush s).warns = s.warns := by
  cases s with
  | mk o st p w => cases st <;> cases p <;> simp [flush]

lemma flush_stack (s : St) : (flush s).stack = [] := by
  cases s with
  | mk o st p w => cases st <;> cases p <;> simp [flush]

lemma foldl_eta (cfg : Config) (map : Registry) (mods : List String) (s : St) :
    mods.foldl (step cfg map) s =
      { out := s.out ++ (mods.foldl (step cfg map)
          { out := [], stack := s.stack, prev := s.prev, warns := [] }).out,
        stack := (mods.foldl (step cfg map)
          { out := [], stack := s.stack, prev := s.prev, warns := [] }).stack,
        prev := (mods.foldl (step cfg map)
          { out := [], stack := s.stack, prev := s.prev, warns := [] }).prev,
        warns := s.warns ++ (mods.foldl (step cfg map)
          { out := [], stack := s.stack, prev := s.prev, warns := [] }).warns } := by
  cases s with
  | mk o st p w => rw [foldl_shape]

lemma out_extract (cfg : Config) (map : Registry) (mods : List String)
    (o : List ScriptDescriptor) (st : List String) (p : Option GroupDescriptor)
    (w : List String) :
    (flush (mods.foldl (step cfg map) { out := o, stack := st, prev := p, warns := w })).out
      = o ++ runFrom cfg map st p mods := by
  rw [foldl_shape, flush_shape]
  unfold runFrom
  rw [flush_out (mods.foldl (step cfg map) { out := [], stack := st, prev := p, warns := [] })]
  simp [List.append_assoc]

lemma step_skip (cfg : Config) (map : Registry) (m : String)
    (h : resolveMod cfg map m = none) (s : St) :
    step cfg map s m = { s with warns := s.warns ++ [m] } := by
  simp [step, h]

/-- Skipping an unresolvable module anywhere in the pass leaves the
emitted descriptors — of this call and of the whole remaining pass —
unchanged. -/
lemma out_mid_skip (cfg : Config) (map : Registry) (x : String)
    (hx : resolveMod cfg map x = none) (mods : List String) (s : St) :
    (flush (mods.foldl (step cfg map) (step cfg map s x))).out =
      (flush (mods.foldl (step cfg map) s)).out := by
  rw [step_skip cfg map x hx]
  rw [foldl_eta cfg map mods { s with warns := s.warns ++ [x] }]
  rw [foldl_eta cfg map mods s]
  rw [flush_shape]
  conv_rhs => rw [flush_shape]

lemma step_warns_some (cfg : Config) (map : Registry) (m : String)
    (gp : GroupDescriptor × String) (h : resolveMod cfg map m = some gp) (s : St) :
    (step cfg map s m).warns = s.warns := by
  obtain ⟨g, pp⟩ := gp
  by_cases hs : isSimilarGroup g s.prev <;> by_cases hc : g.combine <;>
    simp [step, h, hs, hc, flush_warns]

/-- The whole pass factors through the resolvable modules: skipped
modules leave the output-producing state untouched, and the warnings
are exactly the unresolvable modules in input order. -/
lemma foldl_filter (cfg : Config) (map : Registry) (mods : List String) :
    ∀ (st : List String) (p : Option GroupDescriptor),
      mods.foldl (step cfg map) { out := [], stack := st, prev := p, warns := [] } =
        { out := ((mods.filter (resolves cfg map)).foldl (step cfg map)
            { out := [], stack := st, prev := p, warns := [] }).out,
          stack := ((mods.filter (resolves cfg map)).foldl (step cfg map)
            { out := [], stack := st, prev := p, warns := [] }).stack,
          prev := ((mods.filter (resolves cfg map)).foldl (step cfg map)
            { out := [], stack := st, prev := p, warns := [] }).prev,
          warns := mods.filter (fun m => !(resolves cfg map m)) } := by
  induction mods with
  | nil => intro st p; simp
  | cons m rest ih =>
    intro st p
    by_cases hr : resolves cfg map m
    · obtain ⟨gp, h⟩ := Option.isSome_iff_exists.mp hr
      simp only [List.foldl_cons, List.filter_cons, hr, if_pos, Bool.not_true,
        Bool.false_eq_true]
      rw [foldl_eta cfg map rest (step cfg map { out := [], stack := st, prev := p, warns := [] } m)]
      rw [ih]
      rw [foldl_eta cfg map (rest.filter (resolves cfg map))
        (step cfg map { out := [], stack := st, prev := p, warns := [] } m)]
      simp [step_warns_some cfg map m gp h]
    · have h : resolveMod cfg map m = none := by
        cases hm : resolveMod cfg map m with
        | none => rfl
        | some gp => exact absurd (by simp [resolves, hm]) hr
      simp only [List.foldl_cons, List.filter_cons, hr, Bool.not_false]
      rw [step_skip cfg map m h]
      rw [foldl_eta cfg map rest { out := [], stack := st, prev := p, warns := [] ++ [m] }]
      rw [ih]
      simp

lemma step_emptyStack_some (cfg : Config) (map : Registry) (m : String)
    (g : GroupDescriptor) (pp : String) (h : resolveMod cfg map m = some (g, pp))
    (o : List ScriptDescriptor) (p : Option GroupDescriptor) (w : List String) :
    step cfg map { out := o, stack := [], prev := p, warns := w } m =
      (if g.combine then
        { out := o, stack := [g.root ++ pp], prev := some g, warns := w }
       else
        { out := o ++ [{ src := g.base ++ pp }], stack := [], prev := some g, warns := w }) := by
  by_cases hs : isSimilarGroup g p <;> by_cases hc : g.combine <;>
    simp [step, h, hs, hc, flush]

/-- With an empty pending stack, the remembered previous group can
only influence whether an (empty, hence silent) flush happens, so it
is irrelevant to the rest of the pass. -/
lemma foldl_emptyStack (cfg : Config) (map : Registry) (mods : List String) :
    ∀ (p p' : Option GroupDescriptor),
      (mods.foldl (step cfg map) { out := [], stack := [], prev := p, warns := [] } =
         mods.foldl (step cfg map) { out := [], stack := [], prev := p', warns := [] })
      ∨ (∃ O W,
          mods.foldl (step cfg map) { out := [], stack := [], prev := p, warns := [] } =
            { out := O, stack := [], prev := p, warns := W } ∧
          mods.foldl (step cfg map) { out := [], stack := [], prev := p', warns := [] } =
            { out := O, stack := [], prev := p', warns := W }) := by
  induction mods with
  | nil => intro p p'; right; exact ⟨[], [], rfl, rfl⟩
  | cons m rest ih =>
    intro p p'
    cases h : resolveMod cfg map m with
    | some gp =>
      obtain ⟨g, pp⟩ := gp
      left
      simp only [List.foldl_cons]
      rw [step_emptyStack_some cfg map m g pp h, step_emptyStack_some cfg map m g pp h]
    | none =>
      simp only [List.foldl_cons]
      rw [step_skip cfg map m h, step_skip cfg map m h]
      simp only []
      rw [foldl_eta cfg map rest { out := [], stack := [], prev := p, warns := [] ++ [m] }]
      rw [foldl_eta cfg map rest { out := [], stack := [], prev := p', warns := [] ++ [m] }]
      rcases ih p p' with heq | ⟨O, W, h1, h2⟩
      · left; rw [heq]
      · right
        refine ⟨O, [] ++ [m] ++ W, ?_, ?_⟩
        · rw [h1]; simp
        · rw [h2]; simp

lemma runFrom_prev_irrel (cfg : Config) (map : Registry) (mods : List String)
    (p p' : Option GroupDescriptor) :
    runFrom cfg map [] p mods = runFrom cfg map [] p' mods := by
  unfold runFrom
  rcases foldl_emptyStack cfg map mods p p' with h | ⟨O, W, h1, h2⟩
  · rw [h]
  · rw [h1, h2]
    simp [flush]

lemma runFrom_skip (cfg : Config) (map : Registry) (m : String) (rest : List String)
    (st : List String) (p : Option GroupDescriptor)
    (h : resolveMod cfg map m = none) :
    runFrom cfg map st p (m :: rest) = runFrom cfg map st p rest := by
  show (flush (List.foldl (step cfg map)
      { out := [], stack := st, prev := p, warns := [] } (m :: rest))).out = _
  rw [List.foldl_cons, step_skip cfg map m h, out_extract]
  simp

lemma simGB_congr (g g' : GroupDescriptor) (hb : g'.comboBase = g.comboBase)
    (hs : g'.comboSep = g.comboSep) : simGB g' = simGB g := by
  funext e
  simp [simGB, hb, hs]

lemma specRuns_cons_combine (g : GroupDescriptor) (p : String)
    (rest : List (GroupDescriptor × String)) (hc : g.combine = true) :
    specRuns ((g, p) :: rest) =
      { src := g.comboBase ++
          joinSep g.comboSep ((g.root ++ p) :: (rest.takeWhile (simGB g)).map fragOf) }
        :: specRuns (rest.dropWhile (simGB g)) := by
  rw [specRuns, if_pos hc]

lemma specRuns_cons_single (g : GroupDescriptor) (p : String)
    (rest : List (GroupDescriptor × String)) (hc : g.combine = false) :
    specRuns ((g, p) :: rest) = { src := g.base ++ p } :: specRuns rest := by
  rw [specRuns, if_neg (by simp [hc])]

/-- The central correspondence, proved by strong induction on the
module-list length.  The first conjunct relates a pass started with
empty pending state to the specification-side run decomposition; the
second relates a pass started inside a combinable run with pending
fragments `frags` and run group `g`. -/
lemma runs_main_sub (cfg : Config) (map : Registry) :
    ∀ (n : ℕ) (mods : List String), mods.length ≤ n →
      (runFrom cfg map [] none mods = specRuns (resolvedOf cfg map mods)) ∧
      (∀ (g : GroupDescriptor) (frags : List String), g.combine = true → frags ≠ [] →
        runFrom cfg map frags (some g) mods =
          { src := g.comboBase ++ joinSep g.comboSep
              (frags ++ ((resolvedOf cfg map mods).takeWhile (simGB g)).map fragOf) }
            :: specRuns ((resolvedOf cfg map mods).dropWhile (simGB g))) := by
  intro n
  induction n with
  | zero =>
    intro mods hlen
    have hnil : mods = [] := List.eq_nil_of_length_eq_zero (Nat.le_zero.mp hlen)
    subst hnil
    constructor
    · simp [runFrom, flush, resolvedOf, specRuns]
    · intro g frags hg hf
      cases frags with
      | nil => exact absurd rfl hf
      | cons f0 fs =>
        simp [runFrom, flush, resolvedOf, specRuns]
  | succ n ih =>
    intro mods hlen
    cases mods with
    | nil => exact ih [] (by simp)
    | cons m rest =>
      have hrest : rest.length ≤ n := by
        simpa using Nat.lt_succ_iff.mp (Nat.lt_of_lt_of_le (by simp) hlen)
      cases h : resolveMod cfg map m with
      | none =>
        have e1 : resolvedOf cfg map (m :: rest) = resolvedOf cfg map rest := by
          simp [resolvedOf, List.filterMap_cons, h]
        constructor
        · rw [e1, runFrom_skip cfg map m rest ([]) none h]
          exact (ih rest hrest).1
        · intro g frags hg hf
          rw [e1, runFrom_skip cfg map m rest frags (some g) h]
          exact (ih rest hrest).2 g frags hg hf
      | some gp =>
        obtain ⟨g', p'⟩ := gp
        have e1 : resolvedOf cfg map (m :: rest) = (g', p') :: resolvedOf cfg map rest := by
          simp [resolvedOf, List.filterMap_cons, h]
        constructor
        · -- main part: start with empty pending state
          rw [e1]
          by_cases hc : g'.combine = true
          · have hstate : step cfg map
                { out := [], stack := [], prev := none, warns := [] } m =
                { out := [], stack := [g'.root ++ p'], prev := some g', warns := [] } := by
              rw [step_emptyStack_some cfg map m g' p' h, if_pos hc]
            have hrun : runFrom cfg map [] none (m :: rest) =
                runFrom cfg map [g'.root ++ p'] (some g') rest := by
              show (flush (List.foldl (step cfg map)
                  { out := [], stack := [], prev := none, warns := [] } (m :: rest))).out = _
              rw [List.foldl_cons, hstate]
              rfl
            rw [hrun, (ih rest hrest).2 g' ([g'.root ++ p']) hc (by simp),
              specRuns_cons_combine g' p' (resolvedOf cfg map rest) hc]
            simp [fragOf]
          · have hcf : g'.combine = false := by
              cases hx : g'.combine
              · rfl
              · exact absurd hx hc
            have hstate : step cfg map
                { out := [], stack := [], prev := none, warns := [] } m =
                { out := [{ src := g'.base ++ p' }], stack := [], prev := some g',
                  warns := [] } := by
              rw [step_emptyStack_some cfg map m g' p' h, if_neg hc]
              simp
            have hrun : runFrom cfg map [] none (m :: rest) =
                [{ src := g'.base ++ p' }] ++ runFrom cfg map [] (some g') rest := by
              show (flush (List.foldl (step cfg map)
                  { out := [], stack := [], prev := none, warns := [] } (m :: rest))).out = _
              rw [List.foldl_cons, hstate, out_extract]
            rw [hrun, runFrom_prev_irrel cfg map rest (some g') none, (ih rest hrest).1,
              specRuns_cons_single g' p' (resolvedOf cfg map rest) hcf]
            rfl
        · -- sub part: inside a pending combinable run
          intro g frags hg hf
          rw [e1]
          by_cases hsim : isSimilarGroup g' (some g) = true
          · have hc' : g'.combine = true := by
              have := hsim
              simp [isSimilarGroup] at this
              exact this.1.1.1
            have hgB : g'.comboBase = g.comboBase := by
              have := hsim
              simp [isSimilarGroup] at this
              exact this.1.2
            have hgS : g'.comboSep = g.comboSep := by
              have := hsim
              simp [isSimilarGroup] at this
              exact this.2
            have hstate : step cfg map
                { out := [], stack := frags, prev := some g, warns := [] } m =
                { out := [], stack := frags ++ [g'.root ++ p'], prev := some g',
                  warns := [] } := by
              simp [step, h, hsim, hc']
            have hrun : runFrom cfg map frags (some g) (m :: rest) =
                runFrom cfg map (frags ++ [g'.root ++ p']) (some g') rest := by
              show (flush (List.foldl (step cfg map)
                  { out := [], stack := frags, prev := some g, warns := [] } (m :: rest))).out = _
              rw [List.foldl_cons, hstate]
              rfl
            have hsg : simGB g (g', p') = true := by
              simp [simGB, hc', hgB, hgS]
            rw [hrun, (ih rest hrest).2 g' (frags ++ [g'.root ++ p']) hc' (by simp),
              simGB_congr g g' hgB hgS, hgB, hgS]
            rw [List.takeWhile_cons, List.dropWhile_cons]
            simp only [hsg, if_pos]
            simp [fragOf, List.append_assoc]
          · -- the new group closes the current run
            obtain ⟨f0, fs, hfe⟩ : ∃ f0 fs, frags = f0 :: fs := by
              cases frags with
              | nil => exact absurd rfl hf
              | cons f0 fs => exact ⟨f0, fs, rfl⟩
            subst hfe
            have hsg : simGB g (g', p') = false := by
              cases hx : simGB g (g', p')
              · rfl
              · exfalso
                apply hsim
                simp [simGB] at hx
                simp [isSimilarGroup, hx.1, hx.2, hg]
            have hflush :
                flush { out := [], stack := f0 :: fs, prev := some g, warns := [] } =
                  { out := [{ src := g.comboBase ++ joinSep g.comboSep (f0 :: fs) }],
                    stack := [], prev := some g, warns := [] } := by
              simp [flush]
            rw [List.takeWhile_cons, List.dropWhile_cons]
            simp only [hsg, Bool.false_eq_true, if_false]
            by_cases hc : g'.combine = true
            · have hstate : step cfg map
                  { out := [], stack := f0 :: fs, prev := some g, warns := [] } m =
                  { out := [{ src := g.comboBase ++ joinSep g.comboSep (f0 :: fs) }],
                    stack := [g'.root ++ p'], prev := some g', warns := [] } := by
                simp [step, h, hsim, hc, hflush]
              have hrun : runFrom cfg map (f0 :: fs) (some g) (m :: rest) =
                  [{ src := g.comboBase ++ joinSep g.comboSep (f0 :: fs) }] ++
                    runFrom cfg map ([g'.root ++ p']) (some g') rest := by
                show (flush (List.foldl (step cfg map)
                    { out := [], stack := f0 :: fs, prev := some g, warns := [] }
                    (m :: rest))).out = _
                rw [List.foldl_cons, hstate, out_extract]
              rw [hrun, (ih rest hrest).2 g' ([g'.root ++ p']) hc (by simp),
                specRuns_cons_combine g' p' (resolvedOf cfg map rest) hc]
              simp [fragOf]
            · have hcf : g'.combine = false := by
                cases hx : g'.combine
                · rfl
                · exact absurd hx hc
              have hstate : step cfg map
                  { out := [], stack := f0 :: fs, prev := some g, warns := [] } m =
                  { out := [{ src := g.comboBase ++ joinSep g.comboSep (f0 :: fs) },
                      { src := g'.base ++ p' }],
                    stack := [], prev := some g', warns := [] } := by
                simp [step, h, hsim, hcf, hflush]
              have hrun : runFrom cfg map (f0 :: fs) (some g) (m :: rest) =
                  [{ src := g.comboBase ++ joinSep g.comboSep (f0 :: fs) },
                    { src := g'.base ++ p' }] ++
                    runFrom cfg map ([]) (some g') rest := by
                show (flush (List.foldl (step cfg map)
                    { out := [], stack := f0 :: fs, prev := some g, warns := [] }
                    (m :: rest))).out = _
                rw [List.foldl_cons, hstate, out_extract]
              rw [hrun, runFrom_prev_irrel cfg map rest (some g') none, (ih rest hrest).1,
                specRuns_cons_single g' p' (resolvedOf cfg map rest) hcf]
              simp

lemma specRuns_noncombine (rs : List (GroupDescriptor × String))
    (hall : ∀ e ∈ rs, e.1.combine = false) :
    specRuns rs = rs.map (fun e => { src := e.1.base ++ e.2 }) := by
  induction rs with
  | nil => rw [specRuns]; rfl
  | cons e rest ih =>
    obtain ⟨g, p⟩ := e
    have hg : g.combine = false := hall (g, p) (List.mem_cons_self _ _)
    rw [specRuns_cons_single g p rest hg, List.map_cons,
      ih (fun x hx => hall x (List.mem_cons_of_mem _ hx))]

/-! ### The claims -/

/-- C1: for an input list of two module names `[a, b]` whose registry
entries map them to group descriptors (the same or different ones)
with `combine = true` and identical `comboBase` and `comboSep`,
resolution emits exactly one descriptor whose `src` is the `comboBase`
followed by `rootA + pathA`, the `comboSep`, and `rootB + pathB`, in
input order. -/
theorem c1_merge_two_combinable
    (cfg : Config) (map : Registry) (a b ga gb : String)
    (gA gB : GroupDescriptor) (pA pB : String)
    (hseed : cfg.seed = some [a, b])
    (hma : map.lookup a = some { group := ga, path := pA })
    (hmb : map.lookup b = some { group := gb, path := pB })
    (hga : cfg.groups.lookup ga = some gA)
    (hgb : cfg.groups.lookup gb = some gB)
    (hcA : gA.combine = true) (hcB : gB.combine = true)
    (hbase : gA.comboBase = gB.comboBase) (hsep : gA.comboSep = gB.comboSep)
    (hpA : pA ≠ "") (hpB : pB ≠ "") :
    resolveSeed cfg map =
      [{ src := gA.comboBase ++ ((gA.root ++ pA) ++ (gA.comboSep ++ (gB.root ++ pB))) }] := by
  have ra : resolveMod cfg map a = some (gA, pA) := by
    simp [resolveMod, hma, hga, hpA]
  have rb : resolveMod cfg map b = some (gB, pB) := by
    simp [resolveMod, hmb, hgb, hpB]
  have hsimb : isSimilarGroup gB (some gA) = true := by
    simp [isSimilarGroup, hcA, hcB, ← hbase, ← hsep]
  simp [resolveSeed, runModules, seedModules, hseed, initSt, step, ra, rb, hsimb,
    isSimilarGroup, hcA, hcB, flush, joinSep, ← hbase, ← hsep, String.append_assoc]

/-- C2: the output descriptor sequence follows the input order, with
each maximal consecutive run of compatible combinable resolved
modules collapsed into one combined descriptor at the position of the
first module of the run (first conjunct, against the spec-side run
decomposition `specRuns`); in particular, when no module resolves to
a combinable group, the output has one descriptor per resolvable
module in input order with `src = group.base + path` (second
conjunct). -/
theorem c2_order_preservation (cfg : Config) (map : Registry) :
    resolveSeed cfg map = specRuns (resolvedOf cfg map (seedModules cfg)) ∧
    ((∀ e ∈ resolvedOf cfg map (seedModules cfg), e.1.combine = false) →
      resolveSeed cfg map =
        (resolvedOf cfg map (seedModules cfg)).map (fun e => { src := e.1.base ++ e.2 })) := by
  have h1 : resolveSeed cfg map = specRuns (resolvedOf cfg map (seedModules cfg)) :=
    (runs_main_sub cfg map (seedModules cfg).length (seedModules cfg) le_rfl).1
  refine ⟨h1, fun hall => ?_⟩
  rw [h1, specRuns_noncombine _ hall]

/-- C3: for `[a, b, c]` where `a` and `c` resolve to the same
combinable group and `b` to a non-combinable one, resolution emits
exactly three descriptors in order — a combo for `a` alone, a single
for `b`, and a combo for `c` alone; `a` and `c` are not merged across
`b`. -/
theorem c3_run_boundary
    (cfg : Config) (map : Registry) (a b c na nb nc : String)
    (g h2 : GroupDescriptor) (pa pb pc : String)
    (hseed : cfg.seed = some [a, b, c])
    (hma : map.lookup a = some { group := na, path := pa })
    (hmb : map.lookup b = some { group := nb, path := pb })
    (hmc : map.lookup c = some { group := nc, path := pc })
    (hga : cfg.groups.lookup na = some g)
    (hgb : cfg.groups.lookup nb = some h2)
    (hgc : cfg.groups.lookup nc = some g)
    (hcg : g.combine = true) (hch : h2.combine = false)
    (hpa : pa ≠ "") (hpb : pb ≠ "") (hpc : pc ≠ "") :
    resolveSeed cfg map =
      [{ src := g.comboBase ++ (g.root ++ pa) },
       { src := h2.base ++ pb },
       { src := g.comboBase ++ (g.root ++ pc) }] := by
  have ra : resolveMod cfg map a = some (g, pa) := by
    simp [resolveMod, hma, hga, hpa]
  have rb : resolveMod cfg map b = some (h2, pb) := by
    simp [resolveMod, hmb, hgb, hpb]
  have rc : resolveMod cfg map c = some (g, pc) := by
    simp [resolveMod, hmc, hgc, hpc]
  have hs1 : isSimilarGroup h2 (some g) = false := by
    simp [isSimilarGroup, hch]
  have hs2 : isSimilarGroup g (some h2) = false := by
    simp [isSimilarGroup, hch]
  simp [resolveSeed, runModules, seedModules, hseed, initSt, step, ra, rb, rc,
    hs1, hs2, isSimilarGroup, hcg, hch, flush, joinSep, String.append_assoc]

/-- C4: an unregistered module name resolves with the path
`m + "/" + m + suffix + ".js"`, where the suffix is `"-min"` when
the filter is `min`, unset, or unrecognized, `"-debug"` for `debug`,
and `""` for `raw`. -/
theorem c4_default_suffix (cfg : Config) (map : Registry) (m : String)
    (hm : map.lookup m = none) :
    resolveMod cfg map m =
      some (cfg.asGroup, m ++ "/" ++ m ++ filterSuffix cfg.filter ++ ".js")
    ∧ (cfg.filter = none → filterSuffix cfg.filter = "-min")
    ∧ filterSuffix (some ("min")) = "-min"
    ∧ filterSuffix (some ("debug")) = "-debug"
    ∧ filterSuffix (some ("raw")) = ""
    ∧ (∀ f : String, f ≠ "raw" → f ≠ "debug" → filterSuffix (some f) = "-min") := by
  refine ⟨by simp [resolveMod, hm], fun hf => by simp [hf, filterSuffix, DEFAULT_FILTER],
    by decide, by decide, by decide, fun f hraw hdebug => ?_⟩
  by_cases hmin : f = "min"
  · subst hmin; decide
  · by_cases hempty : f = ""
    · subst hempty; decide
    · have b1 : (f == "raw") = false := beq_eq_false_iff_ne.mpr hraw
      have b2 : (f == "min") = false := beq_eq_false_iff_ne.mpr hmin
      have b3 : (f == "debug") = false := beq_eq_false_iff_ne.mpr hdebug
      simp [filterSuffix, FILTERS_MAP, List.lookup, hempty, b1, b2, b3, DEFAULT_FILTER]

/-- C5: an unresolvable module is skipped with a warning and
contributes no descriptor, and resolution continues: the emitted
descriptors of any module list equal those of the list restricted to
its resolvable modules, and the warnings are exactly the unresolvable
modules, in input order. -/
theorem c5_skip_semantics (cfg : Config) (map : Registry) (mods : List String) :
    (runModules cfg map mods).out =
      (runModules cfg map (mods.filter (resolves cfg map))).out ∧
    (runModules cfg map mods).warns = mods.filter (fun m => !(resolves cfg map m)) := by
  unfold runModules initSt
  rw [foldl_filter cfg map mods ([]) none]
  constructor
  · rw [flush_out]
    conv_rhs => rw [flush_out]
  · rw [flush_warns]

/-- C6: whenever no module of the seed resolves — in particular for
the empty input list, where the hypothesis holds vacuously — the
resolution result is the empty list (the result is a list by type,
never a null-like value). -/
theorem c6_empty_result (cfg : Config) (map : Registry)
    (hall : ∀ m ∈ seedModules cfg, resolves cfg map m = false) :
    resolveSeed cfg map = [] := by
  have hfilter : (seedModules cfg).filter (resolves cfg map) = [] := by
    rw [List.filter_eq_nil_iff]
    intro a ha
    simp [hall a ha]
  unfold resolveSeed runModules initSt
  rw [foldl_filter cfg map (seedModules cfg) ([]) none, flush_out]
  rw [hfilter]
  simp [flush]

/-- C7: resolution is a pure function of the configuration and the
registry: one call leaves the observable state (configuration and
registry) unchanged, and a second call with the resulting state
produces an identical descriptor list. -/
theorem c7_resolver_pure (s : AppState) :
    (exposeSeedCall s).2 = s ∧
    (exposeSeedCall ((exposeSeedCall s).2)).1 = (exposeSeedCall s).1 :=
  ⟨rfl, rfl⟩

/-- C8: a skipped (unresolvable) module does not end the pending run.
For every input list in which an unresolvable module `w` sits between
two resolvable modules `a`, `b` whose groups are combinable and
compatible: (i) the skip branch leaves the pending buffer and the
remembered previous group untouched, appending only a warning;
(ii) for every prefix and suffix around `a, w, b`, the emitted
descriptors equal those of the same list without `w`; (iii) from any
loop state whatsoever (hence after any preceding context), processing
`a, w, b` leaves both fragments in one pending run, which the flush
emits as a single combined descriptor holding `rootA ++ pathA` and
`rootB ++ pathB`. -/
theorem c8_skip_preserves_run
    (cfg : Config) (map : Registry) (a w b : String)
    (gA gB : GroupDescriptor) (pa pb : String)
    (hra : resolveMod cfg map a = some (gA, pa))
    (hrw : resolveMod cfg map w = none)
    (hrb : resolveMod cfg map b = some (gB, pb))
    (hcA : gA.combine = true) (hcB : gB.combine = true)
    (hbase : gA.comboBase = gB.comboBase) (hsep : gA.comboSep = gB.comboSep) :
    (∀ s : St, step cfg map s w = { s with warns := s.warns ++ [w] })
    ∧ (∀ pre post : List String,
        (runModules cfg map (pre ++ a :: w :: b :: post)).out =
          (runModules cfg map (pre ++ a :: b :: post)).out)
    ∧ (∀ s : St,
        [a, w, b].foldl (step cfg map) s =
          { out := if isSimilarGroup gA s.prev then s.out else (flush s).out,
            stack := (if isSimilarGroup gA s.prev then s.stack else []) ++
              [gA.root ++ pa, gB.root ++ pb],
            prev := some gB,
            warns := s.warns ++ [w] }
        ∧ (flush ([a, w, b].foldl (step cfg map) s)).out =
            (if isSimilarGroup gA s.prev then s.out else (flush s).out) ++
              [{ src := gA.comboBase ++ joinSep gA.comboSep
                  ((if isSimilarGroup gA s.prev then s.stack else []) ++
                    [gA.root ++ pa, gB.root ++ pb]) }]) := by
  have hsimb : isSimilarGroup gB (some gA) = true := by
    simp [isSimilarGroup, hcA, hcB, ← hbase, ← hsep]
  have hskip : ∀ s : St, step cfg map s w = { s with warns := s.warns ++ [w] } :=
    fun s => step_skip cfg map w hrw s
  refine ⟨hskip, ?_, ?_⟩
  · intro pre post
    unfold runModules
    rw [List.foldl_append, List.foldl_append]
    simp only [List.foldl_cons]
    exact out_mid_skip cfg map w hrw (b :: post)
      (step cfg map (pre.foldl (step cfg map) initSt) a)
  · intro s
    have hA : step cfg map s a =
        { out := if isSimilarGroup gA s.prev then s.out else (flush s).out,
          stack := (if isSimilarGroup gA s.prev then s.stack else []) ++ [gA.root ++ pa],
          prev := some gA, warns := s.warns } := by
      by_cases hsim : isSimilarGroup gA s.prev
      · simp [step, hra, hsim, hcA]
      · simp [step, hra, hsim, hcA, flush_stack, flush_warns]
    have hfold : [a, w, b].foldl (step cfg map) s =
        { out := if isSimilarGroup gA s.prev then s.out else (flush s).out,
          stack := (if isSimilarGroup gA s.prev then s.stack else []) ++
            [gA.root ++ pa, gB.root ++ pb],
          prev := some gB,
          warns := s.warns ++ [w] } := by
      simp only [List.foldl_cons, List.foldl_nil]
      rw [hA, hskip]
      simp [step, hrb, hsimb, hcB, List.append_assoc]
    refine ⟨hfold, ?_⟩
    rw [hfold, flush_shape]
    simp [flush, ← hbase, ← hsep]

/-- C9: an unregistered module uses the top-level configuration
object itself as its group descriptor; when that configuration has
`combine = true`, the module joins the pending combo run as
`config.root + path` and is emitted under `config.comboBase` and
`config.comboSep` rather than as a single `config.base + path`
descriptor (illustrated by two consecutive unregistered modules
merging into one combo descriptor). -/
theorem c9_unregistered_config_group
    (cfg : Config) (map : Registry) (m m2 : String)
    (hm : map.lookup m = none) (hm2 : map.lookup m2 = none)
    (hc : cfg.combine = true) :
    resolveMod cfg map m =
      some (cfg.asGroup, m ++ "/" ++ m ++ filterSuffix cfg.filter ++ ".js")
    ∧ (cfg.seed = some [m, m2] →
        resolveSeed cfg map =
          [{ src := cfg.comboBase ++
              ((cfg.root ++ (m ++ "/" ++ m ++ filterSuffix cfg.filter ++ ".js")) ++
               (cfg.comboSep ++
                (cfg.root ++ (m2 ++ "/" ++ m2 ++ filterSuffix cfg.filter ++ ".js")))) }]) := by
  have rm : resolveMod cfg map m =
      some (cfg.asGroup, m ++ "/" ++ m ++ filterSuffix cfg.filter ++ ".js") := by
    simp [resolveMod, hm]
  have rm2 : resolveMod cfg map m2 =
      some (cfg.asGroup, m2 ++ "/" ++ m2 ++ filterSuffix cfg.filter ++ ".js") := by
    simp [resolveMod, hm2]
  have hsim : isSimilarGroup cfg.asGroup (some cfg.asGroup) = true := by
    simp [isSimilarGroup, Config.asGroup, hc]
  refine ⟨rm, fun hseed => ?_⟩
  simp [resolveSeed, runModules, seedModules, hseed, initSt, step, rm, rm2, hsim,
    isSimilarGroup, Config.asGroup, hc, flush, joinSep, String.append_assoc]

/-- C10: a registered module whose group name is absent from the
group catalog, or whose registry path is the empty string, is
unresolvable: it is skipped with a warning and contributes no
descriptor, leaving the rest of the state untouched. -/
theorem c10_registered_unresolvable
    (cfg : Config) (map : Registry) (m : String) (e : RegistryEntry) (s : St)
    (hm : map.lookup m = some e)
    (hbad : cfg.groups.lookup e.group = none ∨ e.path = "") :
    resolveMod cfg map m = none ∧
    step cfg map s m = { s with warns := s.warns ++ [m] } := by
  have hnone : resolveMod cfg map m = none := by
    rcases hbad with hb | hb
    · simp [resolveMod, hm, hb]
    · cases hg : cfg.groups.lookup e.group <;> simp [resolveMod, hm, hg, hb]
  exact ⟨hnone, step_skip cfg map m hnone s⟩

/-! ### Concrete witnesses -/

theorem c1_merge_two_combinable_witness :
    resolveSeed
      { seed := some (["a", "b"]),
        groups := [(("gA"),
          { combine := true, comboBase := ("/combo?"), comboSep := ("&"), root := ("r/") })] }
      [(("a"), { group := ("gA"), path := ("pA") }),
       (("b"), { group := ("gA"), path := ("pB") })] =
      [{ src := ("/combo?r/pA&r/pB") }] :=
  Eq.trans
    (c1_merge_two_combinable
      ({ seed := some (["a", "b"]),
         groups := [(("gA"),
           { combine := true, comboBase := ("/combo?"), comboSep := ("&"), root := ("r/") })] })
      ([(("a"), { group := ("gA"), path := ("pA") }),
        (("b"), { group := ("gA"), path := ("pB") })])
      ("a") ("b") ("gA") ("gA")
      ({ combine := true, comboBase := ("/combo?"), comboSep := ("&"), root := ("r/") })
      ({ combine := true, comboBase := ("/combo?"), comboSep := ("&"), root := ("r/") })
      ("pA") ("pB")
      (by decide) (by decide) (by decide) (by decide) (by decide)
      (by decide) (by decide) (by decide) (by decide) (by decide) (by decide))
    (by decide)

theorem c2_order_preservation_witness :
    resolveSeed { seed := some (["x"]), base := ("b/") } [] = [{ src := ("b/x/x-min.js") }] :=
  Eq.trans
    ((c2_order_preservation ({ seed := some (["x"]), base := ("b/") }) []).2 (by decide))
    (by decide)

theorem c3_run_boundary_witness :
    resolveSeed
      { seed := some (["a", "b", "c"]),
        groups := [(("g"),
            { combine := true, comboBase := ("/c?"), comboSep := ("&"), root := ("r/") }),
          (("h"), { base := ("s/") })] }
      [(("a"), { group := ("g"), path := ("pa") }),
       (("b"), { group := ("h"), path := ("pb") }),
       (("c"), { group := ("g"), path := ("pc") })] =
      [{ src := ("/c?r/pa") }, { src := ("s/pb") }, { src := ("/c?r/pc") }] :=
  Eq.trans
    (c3_run_boundary
      ({ seed := some (["a", "b", "c"]),
         groups := [(("g"),
             { combine := true, comboBase := ("/c?"), comboSep := ("&"), root := ("r/") }),
           (("h"), { base := ("s/") })] })
      ([(("a"), { group := ("g"), path := ("pa") }),
        (("b"), { group := ("h"), path := ("pb") }),
        (("c"), { group := ("g"), path := ("pc") })])
      ("a") ("b") ("c") ("g") ("h") ("g")
      ({ combine := true, comboBase := ("/c?"), comboSep := ("&"), root := ("r/") })
      ({ base := ("s/") })
      ("pa") ("pb") ("pc")
      (by decide) (by decide) (by decide) (by decide) (by decide) (by decide)
      (by decide) (by decide) (by decide) (by decide) (by decide) (by decide))
    (by decide)

theorem c4_default_suffix_witness :
    resolveMod { filter := some ("debug") } [] ("foo") =
      some (Config.asGroup { filter := some ("debug") }, ("foo/foo-debug.js"))
    ∧ filterSuffix (some ("weird")) = "-min" := by
  have h := c4_default_suffix ({ filter := some ("debug") }) [] ("foo") (by decide)
  exact ⟨Eq.trans h.1 (by decide), h.2.2.2.2.2 ("weird") (by decide) (by decide)⟩

theorem c6_empty_result_witness :
    resolveSeed { seed := some [] } [] = [] :=
  c6_empty_result ({ seed := some [] }) [] (by decide)

theorem c8_skip_preserves_run_witness :
    (step c8cfg c8map {} ("w") = { warns := [("w")] })
    ∧ ((runModules c8cfg c8map ((["x"]) ++ ("a") :: ("w") :: ("b") :: (["y"]))).out =
        (runModules c8cfg c8map ((["x"]) ++ ("a") :: ("b") :: (["y"]))).out)
    ∧ ((flush ([("a"), ("w"), ("b")].foldl (step c8cfg c8map) {})).out =
        [{ src := ("/c?r/pa&r/pb") }]) := by
  have h := c8_skip_preserves_run c8cfg c8map ("a") ("w") ("b")
    ({ combine := true, comboBase := ("/c?"), comboSep := ("&"), root := ("r/") })
    ({ combine := true, comboBase := ("/c?"), comboSep := ("&"), root := ("r/") })
    ("pa") ("pb")
    (by decide) (by decide) (by decide) (by decide) (by decide) (by decide) (by decide)
  exact ⟨Eq.trans (h.1 ({} : St)) (by decide), h.2.1 (["x"]) (["y"]),
    Eq.trans (h.2.2 ({} : St)).2 (by decide)⟩

theorem c9_unregistered_config_group_witness :
    (resolveMod
      { seed := some (["m1", "m2"]), combine := true, comboBase := ("/c?"),
        comboSep := ("&"), root := ("r/") } [] ("m1") =
      some (Config.asGroup
        { seed := some (["m1", "m2"]), combine := true, comboBase := ("/c?"),
          comboSep := ("&"), root := ("r/") }, ("m1/m1-min.js")))
    ∧ (resolveSeed
      { seed := some (["m1", "m2"]), combine := true, comboBase := ("/c?"),
        comboSep := ("&"), root := ("r/") } [] =
      [{ src := ("/c?r/m1/m1-min.js&r/m2/m2-min.js") }]) := by
  have h := c9_unregistered_config_group
    ({ seed := some (["m1", "m2"]), combine := true, comboBase := ("/c?"),
       comboSep := ("&"), root := ("r/") })
    [] ("m1") ("m2") rfl rfl rfl
  exact ⟨Eq.trans h.1 (by decide), Eq.trans (h.2 rfl) (by decide)⟩

theorem c10_registered_unresolvable_witness :
    (resolveMod {} [(("m"), { group := ("ghost"), path := ("p") })] ("m") = none)
    ∧ (step {} [(("m"), { group := ("ghost"), path := ("p") })] {} ("m") =
        { warns := [("m")] }) := by
  have h := c10_registered_unresolvable
    ({}) ([(("m"), { group := ("ghost"), path := ("p") })]) ("m")
    ({ group := ("ghost"), path := ("p") }) ({})
    (by decide) (Or.inl (by decide))
  exact ⟨h.1, Eq.trans h.2 (by decide)⟩
